import Mathlib

/-!
Verification of the ipfs-search crawl/dedup/retry engine.

Shallow embedding of `crawler/crawler.go` (reference dedup, error
classification, hash and file crawling), of the retry loops around the
filesystem listing and the metadata extraction call, and of the AMQP
connection monitor's reconnect step (`queue/amqp` part of the sources).
External collaborators (index store, filesystem client, task queues,
extraction service) are modelled as an environment of response functions;
calls to them are recorded as an effect trace.
-/

namespace IpfsSearch

/-- Constants from crawler.go: reconnect wait (seconds), metadata size
ceiling and the chunker block size used to detect partials. -/
def RECONNECT_WAIT : Nat := 2

def METADATA_MAX_SIZE : Nat := 50 * 1024 * 1024

def PARTIAL_SIZE : Nat := 262144

/-- indexer.Reference: one place a hash was linked from. -/
structure Reference where
  Name : String
  ParentHash : String
deriving DecidableEq, Repr

/-- shell.UnixLsLink: one child entry of a directory listing. -/
structure UnixLsLink where
  Hash : String
  Name : String
  Size : Nat
  «Type» : String
deriving DecidableEq, Repr

/-- shell.UnixLsObject: result of the filesystem list call (fields used). -/
structure UnixLsObject where
  Hash : String
  Size : Nat
  «Type» : String
  Links : List UnixLsLink
deriving DecidableEq, Repr

/-- crawler.CrawlerArgs: a queued work item. -/
structure CrawlerArgs where
  Hash : String
  Name : String
  Size : Nat
  ParentHash : String
  ParentName : String
deriving DecidableEq, Repr

/-- The inner error of a url.Error (uerr.Err), as handleError inspects it:
a net.OpError with its Op string, a syscall.Errno, or anything else. -/
inductive UrlInner where
  | opError (op : String)
  | errno (n : Nat)
  | otherInner
deriving DecidableEq, Repr

/-- syscall.ECONNREFUSED on linux. -/
def ECONNREFUSED : Nat := 111

/-- Go error values as handleError distinguishes them: a shell.Error with
its message, a url.Error with its Timeout and Temporary flags and inner
error, or any other error with its message. -/
inductive GoErr where
  | shellError (msg : String)
  | urlError (timeout temporary : Bool) (inner : UrlInner)
  | generic (msg : String)
deriving DecidableEq, Repr

/-- Property values stored in an index record. -/
inductive Value where
  | str (s : String)
  | nat (n : Nat)
  | refs (rs : List Reference)
  | links (ls : List UnixLsLink)
deriving DecidableEq, Repr

/-- One observable call to a collaborator: an index write, a publish to the
file or hash queue, a filesystem list call, or an extraction (tika) call. -/
inductive Effect where
  | idxWrite (type hash : String) (props : List (String × Value))
  | fqPub (args : CrawlerArgs)
  | hqPub (args : CrawlerArgs)
  | fsList (url : String)
  | extractCall (path : String)
deriving DecidableEq, Repr

/-- Whether an effect is an index write for the given hash. -/
def Effect.isIdxWriteFor (e : Effect) (h : String) : Bool :=
  match e with
  | .idxWrite _ hs _ => hs == h
  | _ => false

/-- Character-list prefix test (pattern first). -/
def hasPrefixChars : List Char → List Char → Bool
  | [], _ => true
  | _ :: _, [] => false
  | p :: ps, c :: cs => p == c && hasPrefixChars ps cs

/-- Character-list substring test (pattern first). -/
def hasSubChars (pat : List Char) : List Char → Bool
  | [] => pat.isEmpty
  | c :: cs => hasPrefixChars pat (c :: cs) || hasSubChars pat cs

/-- strings.Contains: does s hold pat as a substring? -/
def goContains (s pat : String) : Bool :=
  hasSubChars pat.toList s.toList

/-- hashUrl from crawler.go. -/
def hashUrl (hash : String) : String :=
  "/ipfs/" ++ hash

/-- update_references from crawler.go. A nil Go slice is modelled as none;
returns the (possibly extended) list and whether it was updated. -/
def update_references (references : Option (List Reference))
    (name parent_hash : String) : List Reference × Bool :=
  let refs := references.getD []
  if parent_hash == "" then
    (refs, false)
  else if refs.any (fun r => r.ParentHash == parent_hash) then
    (refs, false)
  else
    (refs ++ [⟨name, parent_hash⟩], true)

/-- Result of handleError: either the Go function returns
(try_again, err), or it panics (after the best-effort invalid write). -/
inductive HRes where
  | ret (tryAgain : Bool) (e : Option GoErr)
  | panicked
deriving DecidableEq, Repr

/-- handleError from crawler.go: classify an error, returning the index
writes it performs and its outcome. A shell.Error whose message holds
"proto" indexes an `invalid` record and panics; url.Error timeouts fail,
temporary / dial / read / ECONNREFUSED errors retry; all else fails with
the original error. On a nil error both type assertions fail. -/
def handleError (err : Option GoErr) (hash : String) : List Effect × HRes :=
  match err with
  | none => ([], .ret false none)
  | some e =>
    match e with
    | .shellError msg =>
      if goContains msg "proto" then
        ([.idxWrite "invalid" hash [("error", .str msg)]], .panicked)
      else
        ([], .ret false (some e))
    | .urlError timeout temporary inner =>
      if timeout then
        ([], .ret false (some e))
      else if temporary then
        ([], .ret true none)
      else
        match inner with
        | .opError op =>
          if op == "dial" then ([], .ret true none)
          else if op == "read" then ([], .ret true none)
          else ([], .ret false (some e))
        | .errno n =>
          if n == ECONNREFUSED then ([], .ret true none)
          else ([], .ret false (some e))
        | .otherInner => ([], .ret false (some e))
    | .generic _ => ([], .ret false (some e))

/-- Shape predicate: a shell.Error whose message holds "proto" (the fatal
class of handleError). -/
def errIsFatal : GoErr → Bool
  | .shellError msg => goContains msg "proto"
  | _ => false

/-- Shape predicate: a url.Error reporting Timeout(). -/
def errIsTimeout : GoErr → Bool
  | .urlError t _ _ => t
  | _ => false

/-- Shape predicate: a url.Error that is Temporary(), or whose inner error
is a dial or read net.OpError or ECONNREFUSED (the retryable class). -/
def errIsTransient : GoErr → Bool
  | .urlError _ tmp inner =>
    tmp ||
      (match inner with
       | .opError op => op == "dial" || op == "read"
       | .errno n => n == ECONNREFUSED
       | .otherInner => false)
  | _ => false

/-- The environment of external collaborators: index store lookup
(GetReferences: references — none for a nil Go slice — plus the stored item
type, or an error), the attempt-indexed filesystem listing and extraction
responses, the task-queue publishes and the index writes (each returning an
optional error). -/
structure Env where
  getRefs : String → Except GoErr (Option (List Reference) × String)
  fileList : Nat → String → Except GoErr UnixLsObject
  fqAdd : CrawlerArgs → Option GoErr
  hqAdd : CrawlerArgs → Option GoErr
  indexItem : String → String → List (String × Value) → Option GoErr
  getMetadata : Nat → String → Except GoErr (List (String × Value))

/-- index_references from crawler.go: look up existing references, merge
the new one, and persist the merged list when the hash was already indexed
and gained a reference. Returns the effect trace and either an error or
(references, already_indexed). -/
def index_references (env : Env) (hash name parent_hash : String) :
    List Effect × Except GoErr (List Reference × Bool) :=
  match env.getRefs hash with
  | .error e => ([], .error e)
  | .ok (refsOpt, item_type) =>
    let already_indexed := refsOpt.isSome
    let ru := update_references refsOpt name parent_hash
    if already_indexed then
      if ru.2 then
        let properties := [("references", Value.refs ru.1)]
        match env.indexItem item_type hash properties with
        | some e => ([.idxWrite item_type hash properties], .error e)
        | none =>
          ([.idxWrite item_type hash properties], .ok (ru.1, already_indexed))
      else
        ([], .ok (ru.1, already_indexed))
    else
      ([], .ok (ru.1, already_indexed))

/-- Trace of one retry loop run: attempts made, the sleeps between them
(each RECONNECT_WAIT seconds) and the effects of the attempts (one call
effect per attempt, plus any best-effort invalid write from a panic). -/
structure RetryTrace where
  attempts : Nat
  sleeps : List Nat
  writes : List Effect
deriving DecidableEq, Repr

/-- Outcome of a retry loop: success, exit with the original error of the
last attempt, panic, or divergence (fuel ran out while retrying). -/
inductive LoopOut (α : Type) where
  | ok (a : α)
  | errOut (e : GoErr)
  | panicked
  | diverged
deriving DecidableEq, Repr

/-- The try_again retry loop shared by CrawlHash (around sh.FileList) and
CrawlFile (around getMetadata): call the operation, run its error through
handleError, and on try_again sleep RECONNECT_WAIT and repeat. `call` is
indexed by the attempt number (the external world may answer differently
on each attempt); `callEff` is the effect recording one attempt. On a
successful call handleError gets a nil error and returns (false, nil), so
the loop exits with the result; when handleError returns false it returns
the original error unchanged, which the caller then propagates. -/
def retryLoop {α : Type} (call : Nat → Except GoErr α) (callEff : Effect)
    (hash : String) : Nat → Nat → RetryTrace × LoopOut α
  | _, 0 => (⟨0, [], []⟩, .diverged)
  | i, fuel + 1 =>
    match call i with
    | .ok a => (⟨1, [], [callEff]⟩, .ok a)
    | .error e =>
      match handleError (some e) hash with
      | (ws, .panicked) => (⟨1, [], callEff :: ws⟩, .panicked)
      | (ws, .ret true _) =>
        let tr := retryLoop call callEff hash (i + 1) fuel
        (⟨tr.1.attempts + 1, RECONNECT_WAIT :: tr.1.sleeps,
          callEff :: ws ++ tr.1.writes⟩, tr.2)
      | (ws, .ret false _) => (⟨1, [], callEff :: ws⟩, .errOut e)

/-- Outcome of CrawlHash / CrawlFile: a returned Go error value (none for
success), a panic, or divergence of an inner retry loop. -/
inductive CrawlOutcome where
  | ret (e : Option GoErr)
  | panicked
  | diverged
deriving DecidableEq, Repr

/-- The child-publication loop of CrawlHash's Directory branch. File links
are published to the file queue and a publish error is returned at once;
Directory links are published to the hash queue but the publish's return
value is discarded (the subsequent err check reads the still-nil err
variable); links of any other type are only logged. -/
def pubLinks (env : Env) (hash : String) :
    List UnixLsLink → List Effect × Option GoErr
  | [] => ([], none)
  | link :: rest =>
    let args : CrawlerArgs := ⟨link.Hash, link.Name, link.Size, hash, ""⟩
    if link.«Type» == "File" then
      match env.fqAdd args with
      | some e => ([.fqPub args], some e)
      | none =>
        let pr := pubLinks env hash rest
        (.fqPub args :: pr.1, pr.2)
    else if link.«Type» == "Directory" then
      let _ := env.hqAdd args
      let pr := pubLinks env hash rest
      (.hqPub args :: pr.1, pr.2)
    else
      pubLinks env hash rest

/-- CrawlHash from crawler.go: dedup resolve, then list the hash with the
retry loop; a File is queued on the file queue, a Directory has its links
published and is indexed (unless it is unreferenced partial content),
any other type is only logged. -/
def CrawlHash (env : Env) (fuel : Nat)
    (hash name parent_hash parent_name : String) :
    List Effect × CrawlOutcome :=
  match index_references env hash name parent_hash with
  | (effs, .error e) => (effs, .ret (some e))
  | (effs, .ok (references, already_indexed)) =>
    if already_indexed then
      (effs, .ret none)
    else
      let url := hashUrl hash
      match retryLoop (fun i => env.fileList i url) (.fsList url) hash 0 fuel with
      | (tr, .diverged) => (effs ++ tr.writes, .diverged)
      | (tr, .panicked) => (effs ++ tr.writes, .panicked)
      | (tr, .errOut e) => (effs ++ tr.writes, .ret (some e))
      | (tr, .ok list) =>
        let base := effs ++ tr.writes
        if list.«Type» == "File" then
          let args : CrawlerArgs := ⟨hash, name, list.Size, parent_hash, ""⟩
          match env.fqAdd args with
          | some e => (base ++ [.fqPub args], .ret (some e))
          | none => (base ++ [.fqPub args], .ret none)
        else if list.«Type» == "Directory" then
          match pubLinks env hash list.Links with
          | (pes, some e) => (base ++ pes, .ret (some e))
          | (pes, none) =>
            let properties :=
              [("links", Value.links list.Links),
               ("size", Value.nat list.Size),
               ("references", Value.refs references)]
            if list.Size == PARTIAL_SIZE && parent_hash == "" then
              (base ++ pes, .ret none)
            else
              match env.indexItem "directory" hash properties with
              | some e =>
                (base ++ pes ++ [.idxWrite "directory" hash properties],
                 .ret (some e))
              | none =>
                (base ++ pes ++ [.idxWrite "directory" hash properties],
                 .ret none)
        else
          (base, .ret none)

/-- Go map assignment m[k] = v on an association list: replace the value
at k when present, else append the binding. -/
def mapSet : List (String × Value) → String → Value → List (String × Value)
  | [], k, v => [(k, v)]
  | (k', v') :: rest, k, v =>
    if k' == k then (k, v) :: rest else (k', v') :: mapSet rest k v

/-- The tail of CrawlFile: set metadata["size"] and metadata["references"]
and write the index record of type "file". -/
def crawlFileIndex (env : Env) (hash : String) (references : List Reference)
    (size : Nat) (md : List (String × Value)) (effs : List Effect) :
    List Effect × CrawlOutcome :=
  let metadata :=
    mapSet (mapSet md "size" (.nat size)) "references" (.refs references)
  match env.indexItem "file" hash metadata with
  | some e => (effs ++ [.idxWrite "file" hash metadata], .ret (some e))
  | none => (effs ++ [.idxWrite "file" hash metadata], .ret none)

/-- CrawlFile from crawler.go: skip unreferenced partial content, dedup
resolve, and for non-empty files below the size ceiling fetch metadata via
the retry loop before writing the "file" index record; zero-size files are
indexed at once with empty metadata, oversized files fail hard. -/
def CrawlFile (env : Env) (fuel : Nat)
    (hash name parent_hash parent_name : String) (size : Nat) :
    List Effect × CrawlOutcome :=
  if size == PARTIAL_SIZE && parent_hash == "" then
    ([], .ret none)
  else
    match index_references env hash name parent_hash with
    | (effs, .error e) => (effs, .ret (some e))
    | (effs, .ok (references, already_indexed)) =>
      if already_indexed then
        (effs, .ret none)
      else
        if size > 0 then
          if size > METADATA_MAX_SIZE then
            (effs, .ret (some (.generic
              (hash ++ " (" ++ name ++ ") too large, not indexing (for now)."))))
          else
            let path :=
              if name != "" && parent_hash != "" then
                "/ipfs/" ++ parent_hash ++ "/" ++ name
              else
                "/ipfs/" ++ hash
            match retryLoop (fun i => env.getMetadata i path)
                (.extractCall path) hash 0 fuel with
            | (tr, .diverged) => (effs ++ tr.writes, .diverged)
            | (tr, .panicked) => (effs ++ tr.writes, .panicked)
            | (tr, .errOut e) => (effs ++ tr.writes, .ret (some e))
            | (tr, .ok md) =>
              crawlFileIndex env hash references size md (effs ++ tr.writes)
        else
          crawlFileIndex env hash references size [] effs

/-- maxReconnect from the AMQP connection monitor. -/
def maxReconnect : Nat := 100

/-- One reconnect step of the AMQP connection monitor on a close event:
after the redial, a dial failure panics when the error counter already
exceeds maxReconnect and otherwise increments it; a successful redial
leaves the counter unchanged. none models the panic (process termination). -/
def monitorStep (dialFails : Bool) (errCnt : Nat) : Option Nat :=
  if dialFails then
    if errCnt > maxReconnect then none
    else some (errCnt + 1)
  else
    some errCnt

/-- A run of the connection monitor over a sequence of close events, each
tagged with whether its redial fails, from a starting error count; none
when the monitor panicked along the way. -/
def monitorRun : Nat → List Bool → Option Nat
  | c, [] => some c
  | c, ev :: rest =>
    match monitorStep ev c with
    | none => none
    | some c' => monitorRun c' rest

/-- Claim C1: dedup resolve is idempotent. For every name and non-empty
parentHash, applying update_references and then applying it again with the
same (name, parentHash) to the resulting list returns that list unchanged
with updated = false (the list never gains two entries with the same
parentHash). -/
theorem update_references_idempotent (refs : Option (List Reference))
    (name parent_hash : String) (hph : parent_hash ≠ "") :
    update_references (some (update_references refs name parent_hash).1)
        name parent_hash
      = ((update_references refs name parent_hash).1, false) := by
  have hbeq : (parent_hash == "") = false := by
    simp [hph]
  unfold update_references
  simp only [Option.getD_some, hbeq, Bool.false_eq_true, if_false]
  by_cases hany :
      (refs.getD []).any (fun r => r.ParentHash == parent_hash) = true
  · simp [hany]
  · simp [hany, List.any_append]

/-- Witness for C1 at a concrete input. -/
theorem update_references_idempotent_witness :
    update_references (some (update_references none "a" "p1").1) "a" "p1"
      = ((update_references none "a" "p1").1, false) :=
  update_references_idempotent none "a" "p1" (by decide)

/-- A child directory link whose hash-queue publish will fail. -/
def c2Link : UnixLsLink := ⟨"QmChild", "c", 5, "Directory"⟩

/-- Listing of the directory under crawl in the C2 scenario. -/
def c2List : UnixLsObject := ⟨"QmDir", 1, "Directory", [c2Link]⟩

/-- Environment for C2: the hash is not yet indexed, the listing succeeds,
every hash-queue publish fails with a Go error, everything else succeeds. -/
def c2Env : Env :=
  ⟨fun _ => .ok (none, ""),
   fun _ _ => .ok c2List,
   fun _ => none,
   fun _ => some (.generic "publish failed"),
   fun _ _ _ => none,
   fun _ _ => .ok []⟩

/-- Claim C2 (code bug): the claim says a failure of any single child
publish — to either queue — makes CrawlHash return that error without
writing the directory's index record. In the code the return value of
hq.AddTask is discarded (the err it checks is the stale nil err variable),
so a failed directory-queue child publish is ignored: here every hqAdd
fails, yet CrawlHash returns nil and writes the directory index record. -/
theorem CrawlHash_hq_publish_failure_ignored :
    (CrawlHash c2Env 1 "QmDir" "d" "" "").2 = .ret none
    ∧ Effect.idxWrite "directory" "QmDir"
        [("links", .links [c2Link]), ("size", .nat 1),
         ("references", .refs [])]
        ∈ (CrawlHash c2Env 1 "QmDir" "d" "" "").1 := by
  constructor
  · rfl
  · decide

/-- Claim C9 counterexample: after 101 consecutive failed redials the
monitor is still running (it has not panicked) although its error counter,
101, exceeds the ceiling maxReconnect = 100 — refuting never-more-than-
ceiling as an invariant of the step relation. -/
theorem monitorRun_exceeds_ceiling :
    monitorRun 0 (List.replicate 101 true) = some 101
    ∧ maxReconnect < 101 := by
  constructor
  · rfl
  · decide

/-- Invariant lemma for the monitor: starting from an error count at most
maxReconnect + 1, any count the monitor is still running with is at most
maxReconnect + 1. -/
lemma monitorRun_bounded (events : List Bool) :
    ∀ c n, c ≤ maxReconnect + 1 → monitorRun c events = some n →
      n ≤ maxReconnect + 1 := by
  induction events with
  | nil =>
    intro c n hc hrun
    simp only [monitorRun, Option.some.injEq] at hrun
    omega
  | cons ev rest ih =>
    intro c n hc hrun
    simp only [monitorRun, monitorStep] at hrun
    by_cases hev : ev = true
    · subst hev
      simp only [if_true] at hrun
      by_cases hgt : c > maxReconnect
      · simp [hgt] at hrun
      · simp only [hgt, if_false] at hrun
        exact ih (c + 1) n (by omega) hrun
    · simp only [Bool.not_eq_true] at hev
      subst hev
      simp only [Bool.false_eq_true, if_false] at hrun
      exact ih c n hc hrun

/-- Claim C9 (amended): each failed redial while the error counter is at
most the ceiling (100) increments the counter; once the counter exceeds
the ceiling, a further dial failure terminates the process; hence along
any run of the monitor starting at 0 the counter never exceeds
maxReconnect + 1 = 101 (the monitor survives at most 101 consecutive
failed redials and the next failure panics). -/
theorem monitor_reconnect_ceiling (c : Nat) :
    (c ≤ maxReconnect → monitorStep true c = some (c + 1))
    ∧ (maxReconnect < c → monitorStep true c = none)
    ∧ (∀ events n, monitorRun 0 events = some n → n ≤ maxReconnect + 1) := by
  refine ⟨?_, ?_, ?_⟩
  · intro hc
    simp [monitorStep, Nat.not_lt.mpr hc]
  · intro hc
    simp [monitorStep, hc]
  · intro events n hrun
    exact monitorRun_bounded events 0 n (by omega) hrun

/-- Witness for C9 at concrete counters: a failed redial at count 0
increments to 1, and a failed redial at count 101 terminates. -/
theorem monitor_reconnect_ceiling_witness :
    monitorStep true 0 = some 1 ∧ monitorStep true 101 = none :=
  ⟨(monitor_reconnect_ceiling 0).1 (by decide),
   (monitor_reconnect_ceiling 101).2.1 (by decide)⟩

/-- Claim C4: handleError maps each error to exactly one documented class,
and being a pure function of the error (and hash) its verdict is the same
on every call. Protocol-level errors (a shell.Error whose message holds
"proto") are Fatal: a best-effort index write of type "invalid" carrying
the error message, then panic; url.Error timeouts are NonRetryable: the
original error is propagated with retry = false; temporary errors, dial
failures, read errors and connection-refused are Retryable: retry = true
with a nil error; every other error is NonRetryable: retry = false with
the original error. -/
theorem handleError_classification (hash : String) (e : GoErr) :
    (∀ msg, e = .shellError msg → goContains msg "proto" = true →
      handleError (some e) hash
        = ([.idxWrite "invalid" hash [("error", .str msg)]], .panicked))
    ∧ (errIsTimeout e = true →
      handleError (some e) hash = ([], .ret false (some e)))
    ∧ (errIsTimeout e = false → errIsTransient e = true →
      handleError (some e) hash = ([], .ret true none))
    ∧ (errIsFatal e = false → errIsTimeout e = false →
        errIsTransient e = false →
      handleError (some e) hash = ([], .ret false (some e))) := by
  refine ⟨?_, ?_, ?_, ?_⟩
  · rintro msg rfl hproto
    simp [handleError, hproto]
  · intro htime
    cases e with
    | shellError msg => simp [errIsTimeout] at htime
    | urlError timeout temporary inner =>
      simp only [errIsTimeout] at htime
      subst htime
      simp [handleError]
    | generic msg => simp [errIsTimeout] at htime
  · intro htime htrans
    cases e with
    | shellError msg => simp [errIsTransient] at htrans
    | urlError timeout temporary inner =>
      simp only [errIsTimeout] at htime
      subst htime
      simp only [errIsTransient, Bool.or_eq_true] at htrans
      rcases htrans with htmp | hin
      · subst htmp
        simp [handleError]
      · cases inner with
        | opError op =>
          simp only [Bool.or_eq_true, beq_iff_eq] at hin
          cases temporary with
          | true => simp [handleError]
          | false =>
            rcases hin with rfl | rfl <;> simp [handleError]
        | errno n =>
          simp only [beq_iff_eq] at hin
          subst hin
          cases temporary <;> simp [handleError]
        | otherInner => simp at hin
    | generic msg => simp [errIsTransient] at htrans
  · intro hfatal htime htrans
    cases e with
    | shellError msg =>
      simp only [errIsFatal] at hfatal
      simp [handleError, hfatal]
    | urlError timeout temporary inner =>
      simp only [errIsTimeout] at htime
      subst htime
      cases temporary with
      | true => simp [errIsTransient] at htrans
      | false =>
        cases inner with
        | opError op =>
          simp only [errIsTransient, Bool.false_or,
            Bool.or_eq_false_iff] at htrans
          simp [handleError, htrans.1, htrans.2]
        | errno n =>
          simp only [errIsTransient, Bool.false_or] at htrans
          simp [handleError, htrans]
        | otherInner => simp [handleError]
    | generic msg => simp [handleError]

/-- Witness for C4 at concrete errors: a dial failure is Retryable, a
timeout is NonRetryable with the original error propagated. -/
theorem handleError_classification_witness :
    handleError (some (.urlError false false (.opError "dial"))) "QmA"
      = ([], .ret true none)
    ∧ handleError (some (.urlError true false .otherInner)) "QmA"
      = ([], .ret false (some (.urlError true false .otherInner))) :=
  ⟨(handleError_classification "QmA"
      (.urlError false false (.opError "dial"))).2.2.1 (by decide) (by decide),
   (handleError_classification "QmA"
      (.urlError true false .otherInner)).2.1 (by decide)⟩

/-- Claim C6: the alreadyIndexed flag returned by index_references is true
iff the index lookup found an existing record (a non-nil reference list),
independent of the stored item type t. -/
theorem index_references_alreadyIndexed (env : Env)
    (hash name parent_hash : String) (refsOpt : Option (List Reference))
    (t : String) (hget : env.getRefs hash = .ok (refsOpt, t))
    (r : List Reference) (ai : Bool)
    (hres : (index_references env hash name parent_hash).2 = .ok (r, ai)) :
    ai = refsOpt.isSome := by
  unfold index_references at hres
  rw [hget] at hres
  by_cases hsome : refsOpt.isSome = true
  · simp only [hsome, if_true] at hres
    by_cases hupd : (update_references refsOpt name parent_hash).2 = true
    · simp only [hupd, if_true] at hres
      cases hidx : env.indexItem t hash
          [("references", Value.refs (update_references refsOpt name parent_hash).1)] with
      | some e => rw [hidx] at hres; simp at hres
      | none =>
        rw [hidx] at hres
        simp only [Except.ok.injEq, Prod.mk.injEq] at hres
        rw [← hres.2, hsome]
    · simp only [hupd] at hres
      simp only [Bool.not_eq_true] at hupd
      simp only [hupd, Bool.false_eq_true, if_false, Except.ok.injEq,
        Prod.mk.injEq] at hres
      rw [← hres.2, hsome]
  · simp only [Bool.not_eq_true] at hsome
    simp only [hsome, Bool.false_eq_true, if_false, Except.ok.injEq,
      Prod.mk.injEq] at hres
    rw [← hres.2, hsome]

/-- Environment for the C6 witness: the hash is already indexed with one
reference and an arbitrary stored type; index writes succeed. -/
def c6Env : Env :=
  ⟨fun _ => .ok (some [⟨"n", "p0"⟩], "sometype"),
   fun _ _ => .ok ⟨"", 0, "", []⟩,
   fun _ => none,
   fun _ => none,
   fun _ _ _ => none,
   fun _ _ => .ok []⟩

/-- Witness for C6 at a concrete environment: the lookup finds a record,
and the returned alreadyIndexed flag is its isSome. -/
theorem index_references_alreadyIndexed_witness :
    (true : Bool) = (some [Reference.mk "n" "p0"]).isSome :=
  index_references_alreadyIndexed c6Env "QmH" "n2" "p1"
    (some [⟨"n", "p0"⟩]) "sometype" rfl
    [⟨"n", "p0"⟩, ⟨"n2", "p1"⟩] true rfl

/-- Claim C8: a zero-size file that is not deduplicated (the lookup finds
no record; zero size is never the partial chunk size) makes no extraction
call and produces exactly one index write, of type "file", whose
properties are the empty metadata map extended with size 0 and the
resolved reference list. CrawlFile then returns the index write's error,
nil on success. -/
theorem CrawlFile_zero_size (env : Env) (fuel : Nat)
    (hash name parent_hash parent_name t : String)
    (hget : env.getRefs hash = .ok (none, t)) :
    (CrawlFile env fuel hash name parent_hash parent_name 0).1
      = [.idxWrite "file" hash
          [("size", .nat 0),
           ("references", .refs (update_references none name parent_hash).1)]] := by
  have hpart : ((0 : Nat) == PARTIAL_SIZE && parent_hash == "") = false := by
    simp [PARTIAL_SIZE]
  unfold CrawlFile
  rw [hpart]
  simp only [Bool.false_eq_true, if_false]
  unfold index_references
  rw [hget]
  simp only [Option.isSome_none, Bool.false_eq_true, if_false]
  simp only [gt_iff_lt, Nat.lt_irrefl, if_false]
  unfold crawlFileIndex
  cases hidx : env.indexItem "file" hash
      [("size", .nat 0),
       ("references", .refs (update_references none name parent_hash).1)] with
  | some e => simp [mapSet, hidx]
  | none => simp [mapSet, hidx]

/-- Environment for the C8 witness: nothing indexed yet, all writes
succeed. -/
def c8Env : Env :=
  ⟨fun _ => .ok (none, ""),
   fun _ _ => .ok ⟨"", 0, "", []⟩,
   fun _ => none,
   fun _ => none,
   fun _ _ _ => none,
   fun _ _ => .ok []⟩

/-- Witness for C8 at a concrete environment: the effect trace of crawling
a zero-size file is exactly one "file" index write with size 0 and the
merged reference. -/
theorem CrawlFile_zero_size_witness :
    (CrawlFile c8Env 1 "QmZ" "z" "QmP" "" 0).1
      = [.idxWrite "file" "QmZ"
          [("size", .nat 0),
           ("references", .refs (update_references none "z" "QmP").1)]] :=
  CrawlFile_zero_size c8Env 1 "QmZ" "z" "QmP" "" "" rfl

/-- Environment for the C7 counterexample: the oversized file's hash is
already indexed with one reference under another parent; writes succeed. -/
def c7Env : Env :=
  ⟨fun _ => .ok (some [⟨"old", "p0"⟩], "file"),
   fun _ _ => .ok ⟨"", 0, "", []⟩,
   fun _ => none,
   fun _ => none,
   fun _ _ _ => none,
   fun _ _ => .ok []⟩

/-- Claim C7 counterexample: for an oversized file (size one past the
ceiling) whose hash is already indexed and which is observed under a new
parent, CrawlFile performs an index write for that hash (the reference
patch) and returns nil, not an error — the dedup step runs before the size
check. -/
theorem CrawlFile_oversize_counterexample :
    (CrawlFile c7Env 1 "F" "n" "pNew" "" (METADATA_MAX_SIZE + 1)).2
      = .ret none
    ∧ ((CrawlFile c7Env 1 "F" "n" "pNew" "" (METADATA_MAX_SIZE + 1)).1.all
        fun e => !(e.isIdxWriteFor "F")) = false := by
  constructor <;> rfl

/-- Claim C7 (amended): for every file WorkItem with size strictly greater
than METADATA_MAX_SIZE whose dedup lookup does not find an existing record,
CrawlFile performs no collaborator write at all (in particular it never
calls indexItem for that hash) and returns a non-nil error. -/
theorem CrawlFile_oversize_not_indexed (env : Env) (fuel : Nat)
    (hash name parent_hash parent_name : String) (size : Nat)
    (hsize : METADATA_MAX_SIZE < size)
    (hnot : ∀ refs t, env.getRefs hash ≠ .ok (some refs, t)) :
    (CrawlFile env fuel hash name parent_hash parent_name size).1 = []
    ∧ ∃ e, (CrawlFile env fuel hash name parent_hash parent_name size).2
        = .ret (some e) := by
  have hnp : (size == PARTIAL_SIZE) = false := by
    have : size ≠ PARTIAL_SIZE := by
      unfold METADATA_MAX_SIZE at hsize
      unfold PARTIAL_SIZE
      omega
    simp [this]
  unfold CrawlFile
  rw [hnp]
  simp only [Bool.false_and, Bool.false_eq_true, if_false]
  unfold index_references
  cases hg : env.getRefs hash with
  | error e => exact ⟨rfl, e, rfl⟩
  | ok p =>
    obtain ⟨refsOpt, t⟩ := p
    cases refsOpt with
    | some rs => exact absurd hg (hnot rs t)
    | none =>
      simp only [Option.isSome_none, Bool.false_eq_true, if_false]
      have hpos : 0 < size := by
        unfold METADATA_MAX_SIZE at hsize
        omega
      simp only [gt_iff_lt, hpos, if_true, hsize]
      exact ⟨trivial, _, rfl⟩

/-- Environment for the C7 witness: nothing indexed. -/
def c7EnvB : Env :=
  ⟨fun _ => .ok (none, ""),
   fun _ _ => .ok ⟨"", 0, "", []⟩,
   fun _ => none,
   fun _ => none,
   fun _ _ _ => none,
   fun _ _ => .ok []⟩

/-- Witness for the amended C7 at a concrete environment and size. -/
theorem CrawlFile_oversize_not_indexed_witness :
    (CrawlFile c7EnvB 1 "F" "n" "" "" (METADATA_MAX_SIZE + 1)).1 = []
    ∧ ∃ e, (CrawlFile c7EnvB 1 "F" "n" "" "" (METADATA_MAX_SIZE + 1)).2
        = .ret (some e) :=
  CrawlFile_oversize_not_indexed c7EnvB 1 "F" "n" "" "" (METADATA_MAX_SIZE + 1)
    (by decide) (fun refs t => by simp [c7EnvB])

/-- Claim C10: a hash that is not already indexed and whose listing
succeeds with a type that is neither File nor Directory is silently
skipped: CrawlHash performs only the listing call — no queue publish and
no index write — and returns nil. -/
theorem CrawlHash_unsupported_type (env : Env) (fuel : Nat)
    (hash name parent_hash parent_name t : String) (l : UnixLsObject)
    (hget : env.getRefs hash = .ok (none, t))
    (hlist : env.fileList 0 (hashUrl hash) = .ok l)
    (hft : l.«Type» ≠ "File") (hdt : l.«Type» ≠ "Directory")
    (hfuel : 1 ≤ fuel) :
    CrawlHash env fuel hash name parent_hash parent_name
      = ([.fsList (hashUrl hash)], .ret none) := by
  obtain ⟨f, rfl⟩ : ∃ f, fuel = f + 1 := ⟨fuel - 1, by omega⟩
  unfold CrawlHash index_references
  rw [hget]
  simp only [Option.isSome_none, Bool.false_eq_true, if_false]
  unfold retryLoop
  rw [hlist]
  simp [hft, hdt]

/-- Environment for the C10 witness: nothing indexed, the listing returns
a Symlink object. -/
def c10Env : Env :=
  ⟨fun _ => .ok (none, ""),
   fun _ _ => .ok ⟨"QmS", 7, "Symlink", []⟩,
   fun _ => none,
   fun _ => none,
   fun _ _ _ => none,
   fun _ _ => .ok []⟩

/-- Witness for C10 at a concrete environment. -/
theorem CrawlHash_unsupported_type_witness :
    CrawlHash c10Env 1 "QmS" "s" "QmP" ""
      = ([.fsList (hashUrl "QmS")], .ret none) :=
  CrawlHash_unsupported_type c10Env 1 "QmS" "s" "QmP" "" ""
    ⟨"QmS", 7, "Symlink", []⟩ rfl rfl (by decide) (by decide) (by decide)

/-- Helper for C3: when every file-queue publish succeeds, the child
publication loop reports no error and its effects are queue publishes
only — never an index write. -/
lemma pubLinks_no_idxWrite (env : Env) (hash : String)
    (hfq : ∀ a, env.fqAdd a = none) : ∀ links,
    (pubLinks env hash links).2 = none
    ∧ ((pubLinks env hash links).1.all
        fun e => !(e.isIdxWriteFor hash)) = true := by
  intro links
  induction links with
  | nil => exact ⟨rfl, rfl⟩
  | cons link rest ih =>
    unfold pubLinks
    by_cases hf : (link.«Type» == "File") = true
    · rw [hf]
      simp only [if_true]
      rw [hfq ⟨link.Hash, link.Name, link.Size, hash, ""⟩]
      simpa [Effect.isIdxWriteFor] using ih
    · simp only [Bool.not_eq_true] at hf
      rw [hf]
      simp only [Bool.false_eq_true, if_false]
      by_cases hd : (link.«Type» == "Directory") = true
      · rw [hd]
        simpa [Effect.isIdxWriteFor] using ih
      · simp only [Bool.not_eq_true] at hd
        rw [hd]
        simpa using ih

/-- Claim C3: the partial-skip invariant. For a WorkItem with size equal
to PARTIAL_SIZE and empty parentHash, CrawlFile skips immediately (no
effect at all, nil return); and for a hash that is not already indexed
whose listing succeeds as a Directory of size PARTIAL_SIZE with empty
parentHash, and whose child publishes succeed, the directory branch of
CrawlHash performs no index write for that hash and returns nil. -/
theorem partial_skip (env : Env) (fuel : Nat)
    (hash name parent_name t : String) (l : UnixLsObject)
    (hget : env.getRefs hash = .ok (none, t))
    (hlist : env.fileList 0 (hashUrl hash) = .ok l)
    (hdir : l.«Type» = "Directory") (hsize : l.Size = PARTIAL_SIZE)
    (hfq : ∀ a, env.fqAdd a = none) (hfuel : 1 ≤ fuel) :
    CrawlFile env fuel hash name "" parent_name PARTIAL_SIZE
      = ([], .ret none)
    ∧ ((CrawlHash env fuel hash name "" parent_name).1.all
        fun e => !(e.isIdxWriteFor hash)) = true
    ∧ (CrawlHash env fuel hash name "" parent_name).2 = .ret none := by
  obtain ⟨f, rfl⟩ : ∃ f, fuel = f + 1 := ⟨fuel - 1, by omega⟩
  refine ⟨by unfold CrawlFile; simp, ?_⟩
  have hpub := pubLinks_no_idxWrite env hash hfq l.Links
  unfold CrawlHash index_references
  rw [hget]
  simp only [Option.isSome_none, Bool.false_eq_true, if_false]
  unfold retryLoop
  rw [hlist]
  have hfd : (l.«Type» == "File") = false := by simp [hdir]
  have hdd : (l.«Type» == "Directory") = true := by simp [hdir]
  have hps : (l.Size == PARTIAL_SIZE && ("" : String) == "") = true := by
    simp [hsize]
  obtain ⟨hp2, hall⟩ := hpub
  cases hpl : pubLinks env hash l.Links with
  | mk pes perr =>
    rw [hpl] at hp2 hall
    subst hp2
    simp only [hfd, hdd, hpl, hps, Bool.false_eq_true, if_false, if_true,
      List.nil_append, List.all_append, List.all_cons, List.all_nil,
      Bool.and_eq_true]
    simp [Effect.isIdxWriteFor, hall]
    intro x hx
    have hh := List.all_eq_true.mp hall x hx
    simpa [Effect.isIdxWriteFor] using hh

/-- Environment for the C3 witness: nothing indexed; the hash lists as a
Directory of exactly the partial chunk size with one File child; all
publishes succeed. -/
def c3Env : Env :=
  ⟨fun _ => .ok (none, ""),
   fun _ _ => .ok ⟨"QmD", PARTIAL_SIZE, "Directory", [⟨"QmF", "f", 3, "File"⟩]⟩,
   fun _ => none,
   fun _ => none,
   fun _ _ _ => none,
   fun _ _ => .ok []⟩

/-- Witness for C3 at a concrete environment. -/
theorem partial_skip_witness :
    CrawlFile c3Env 1 "QmD" "d" "" "" PARTIAL_SIZE = ([], .ret none)
    ∧ ((CrawlHash c3Env 1 "QmD" "d" "" "").1.all
        fun e => !(e.isIdxWriteFor "QmD")) = true
    ∧ (CrawlHash c3Env 1 "QmD" "d" "" "").2 = .ret none :=
  partial_skip c3Env 1 "QmD" "d" "" ""
    ⟨"QmD", PARTIAL_SIZE, "Directory", [⟨"QmF", "f", 3, "File"⟩]⟩
    rfl rfl rfl rfl (fun a => rfl) (by decide)

/-- A non-panicking handleError performs no index write. -/
lemma handleError_no_writes (e : GoErr) (hash : String)
    (h : (handleError (some e) hash).2 ≠ HRes.panicked) :
    (handleError (some e) hash).1 = [] := by
  cases e with
  | shellError msg =>
    by_cases hp : goContains msg "proto" = true
    · exact absurd (by simp [handleError, hp]) h
    · simp only [Bool.not_eq_true] at hp
      simp [handleError, hp]
  | urlError timeout temporary inner =>
    cases timeout with
    | true => simp [handleError]
    | false =>
      cases temporary with
      | true => simp [handleError]
      | false =>
        cases inner with
        | opError op =>
          by_cases h1 : (op == "dial") = true
          · simp [handleError, h1]
          · simp only [Bool.not_eq_true] at h1
            by_cases h2 : (op == "read") = true
            · simp [handleError, h1, h2]
            · simp only [Bool.not_eq_true] at h2
              simp [handleError, h1, h2]
        | errno n =>
          by_cases h1 : (n == ECONNREFUSED) = true
          · simp [handleError, h1]
          · simp only [Bool.not_eq_true] at h1
            simp [handleError, h1]
        | otherInner => simp [handleError]
  | generic msg => simp [handleError]

/-- Helper for C5: when the first n attempts starting at index i fail with
retryable errors and attempt i + n succeeds, the retry loop runs exactly
n + 1 attempts with n interleaved sleeps of RECONNECT_WAIT and returns the
success. -/
lemma retryLoop_ok_after {α : Type} (call : Nat → Except GoErr α)
    (eff : Effect) (hash : String) : ∀ (n i fuel : Nat) (a : α),
    (∀ j, j < n → ∃ e, call (i + j) = .error e
        ∧ handleError (some e) hash = ([], .ret true none)) →
    call (i + n) = .ok a → n < fuel →
    retryLoop call eff hash i fuel
      = (⟨n + 1, List.replicate n RECONNECT_WAIT,
          List.replicate (n + 1) eff⟩, .ok a) := by
  intro n
  induction n with
  | zero =>
    intro i fuel a hfail hok hfuel
    obtain ⟨f, rfl⟩ : ∃ f, fuel = f + 1 := ⟨fuel - 1, by omega⟩
    rw [Nat.add_zero] at hok
    unfold retryLoop
    rw [hok]
    rfl
  | succ n ih =>
    intro i fuel a hfail hok hfuel
    obtain ⟨f, rfl⟩ : ∃ f, fuel = f + 1 := ⟨fuel - 1, by omega⟩
    obtain ⟨e, he, hhe⟩ := hfail 0 (Nat.succ_pos n)
    rw [Nat.add_zero] at he
    have hshift : ∀ j, j < n → ∃ e2, call (i + 1 + j) = .error e2
        ∧ handleError (some e2) hash = ([], .ret true none) := by
      intro j hj
      have h2 := hfail (j + 1) (by omega)
      have heq : i + (j + 1) = i + 1 + j := by omega
      rw [heq] at h2
      exact h2
    have hok2 : call (i + 1 + n) = .ok a := by
      have heq : i + (n + 1) = i + 1 + n := by omega
      rw [heq] at hok
      exact hok
    have ihr := ih (i + 1) f a hshift hok2 (by omega)
    unfold retryLoop
    rw [he]
    simp only [hhe, ihr, List.nil_append, List.replicate_succ,
      List.singleton_append]

/-- Claim C5: the retry loop around the metadata fetch (shared with the
filesystem listing; `call` is the attempt-indexed external operation).
First: for every N ≥ 1, if the first N - 1 attempts fail with Retryable
errors (handleError answers try_again with no error and no write) and the
Nth succeeds, the loop makes exactly N attempts, sleeps the fixed
RECONNECT_WAIT interval between consecutive attempts (N - 1 sleeps),
terminates and returns the successful result. Second: a NonRetryable first
error ends the loop immediately — one attempt, no sleep — propagating that
original error. Third: a Fatal (panicking) first error ends the loop
immediately in the panic, after handleError's best-effort invalid write. -/
theorem retry_loop_exact_attempts {α : Type} (call : Nat → Except GoErr α)
    (eff : Effect) (hash : String) :
    (∀ (N : Nat) (a : α), 0 < N →
      (∀ i, i + 1 < N → ∃ e, call i = .error e
          ∧ handleError (some e) hash = ([], .ret true none)) →
      call (N - 1) = .ok a →
      ∀ fuel, N ≤ fuel →
        retryLoop call eff hash 0 fuel
          = (⟨N, List.replicate (N - 1) RECONNECT_WAIT,
              List.replicate N eff⟩, .ok a))
    ∧ (∀ e b, call 0 = .error e →
      (handleError (some e) hash).2 = .ret false b →
      ∀ fuel, 1 ≤ fuel →
        retryLoop call eff hash 0 fuel = (⟨1, [], [eff]⟩, .errOut e))
    ∧ (∀ e ws, call 0 = .error e →
      handleError (some e) hash = (ws, .panicked) →
      ∀ fuel, 1 ≤ fuel →
        retryLoop call eff hash 0 fuel
          = (⟨1, [], eff :: ws⟩, .panicked)) := by
  refine ⟨?_, ?_, ?_⟩
  · intro N a hN hfail hok fuel hfuel
    have hmain := retryLoop_ok_after call eff hash (N - 1) 0 fuel a
      (fun j hj => by
        have := hfail j (by omega)
        simpa using this)
      (by simpa using hok) (by omega)
    have hN1 : N - 1 + 1 = N := by omega
    rw [hN1] at hmain
    exact hmain
  · intro e b h0 hcls fuel hfuel
    obtain ⟨f, rfl⟩ : ∃ f, fuel = f + 1 := ⟨fuel - 1, by omega⟩
    have hw : (handleError (some e) hash).1 = [] :=
      handleError_no_writes e hash (by rw [hcls]; simp)
    have hfull : handleError (some e) hash = ([], .ret false b) := by
      rw [Prod.ext_iff]
      exact ⟨hw, hcls⟩
    unfold retryLoop
    rw [h0]
    simp only [hfull]
  · intro e ws h0 hpan fuel hfuel
    obtain ⟨f, rfl⟩ : ∃ f, fuel = f + 1 := ⟨fuel - 1, by omega⟩
    unfold retryLoop
    rw [h0]
    simp only [hpan]

/-- The transient error of the C5 witness scenario: a temporary url.Error. -/
def c5err : GoErr := .urlError false true .otherInner

/-- The C5 witness's attempt-indexed metadata fetch: transient failures on
the first two attempts, success on the third. -/
def c5call : Nat → Except GoErr Nat
  | 0 => .error c5err
  | 1 => .error c5err
  | _ => .ok 42

/-- Witness for C5 at N = 3: exactly three attempts, two sleeps of
RECONNECT_WAIT, and the successful result. -/
theorem retry_loop_exact_attempts_witness :
    retryLoop c5call (.extractCall "/ipfs/QmX") "QmX" 0 3
      = (⟨3, List.replicate 2 RECONNECT_WAIT,
          List.replicate 3 (.extractCall "/ipfs/QmX")⟩, .ok 42) :=
  (retry_loop_exact_attempts c5call (.extractCall "/ipfs/QmX") "QmX").1 3 42
    (by decide)
    (fun i hi =>
      match i, hi with
      | 0, _ => ⟨c5err, rfl, by decide⟩
      | 1, _ => ⟨c5err, rfl, by decide⟩
      | n + 2, hi => absurd hi (by omega))
    rfl 3 (by decide)

end IpfsSearch
